import Mathlib

/-!
Verification development for the MyDNSHost Go API client
(package mydnshost_go_api, file client.go plus the authenticator file).

The Go code is shallowly embedded:

* JSON documents are modelled by the inductive type `Json`; a Go
  `json.Marshal` of a struct becomes a Lean function producing a `Json`
  value, with the exact field order and the `omitempty` omission rules of
  encoding/json reproduced (a string field is omitted when empty, an int
  field when zero, a pointer field when nil).
* Go pointer-typed fields (`*int`, `*bool`, `*string`, `*json.RawMessage`)
  become `Option` values; a nil pointer is `none`.
* The HTTP exchange itself is an oracle: a call outcome is computed from
  the `HttpResponse` (status code plus body) the transport hands back, or
  from a transport failure. The functions below reproduce what client.go
  does with that response.
* A nil-pointer dereference (the typed endpoint methods evaluate
  `*res.Response` unconditionally) is modelled by the distinguished
  outcome `CallOutcome.panicked`.
-/

/-- A JSON document, the target of the embedded `json.Marshal`.
Objects keep their fields as an ordered association list, matching the
deterministic field order encoding/json produces for Go structs. -/
inductive Json where
  | null : Json
  | bool : Bool → Json
  | num : Int → Json
  | str : String → Json
  | arr : List Json → Json
  | obj : List (String × Json) → Json

/-- Field lookup on a JSON object, `none` on other JSON values. -/
def Json.lookup (j : Json) (key : String) : Option Json :=
  match j with
  | .obj fields => fields.lookup key
  | _ => none

/-- The keys of a JSON object in serialized order, `[]` on other values. -/
def Json.objKeys (j : Json) : List String :=
  match j with
  | .obj fields => fields.map Prod.fst
  | _ => []

/-- Go struct `Record` (client.go): the basic details of a DNS record.
`TTL` is a plain Go `int` (default 0); `Priority` and `Disabled` are
pointers, so they carry an explicit presence bit. -/
structure Record where
  name : String := ""
  «type» : String := ""
  content : String := ""
  ttl : Int := 0
  priority : Option Int := none
  disabled : Option Bool := none
deriving DecidableEq, Repr

/-- Go struct `ExistingRecord`: a `Record` stored by the server, with an
id and change metadata. The `Record` is embedded, so its JSON fields are
flattened into the same object. -/
structure ExistingRecord where
  record : Record
  id : Int
  changedAt : Int := 0
  changedBy : Option Int := none
deriving DecidableEq, Repr

/-- Go struct `ChangedRecord`: an `ExistingRecord` plus the outcome flags
of a batch mutation. -/
structure ChangedRecord where
  existing : ExistingRecord
  updated : Bool := false
  deleted : Bool := false
deriving DecidableEq, Repr

/-- encoding/json for a `string` field tagged omitempty: omitted when
empty. -/
def omitString (key s : String) : List (String × Json) :=
  if s = "" then [] else [(key, Json.str s)]

/-- encoding/json for an `int` field tagged omitempty: omitted when
zero. -/
def omitInt (key : String) (n : Int) : List (String × Json) :=
  if n = 0 then [] else [(key, Json.num n)]

/-- encoding/json for a `*int` field tagged omitempty: omitted when nil,
emitted (also when pointing at zero) otherwise. -/
def optIntField (key : String) : Option Int → List (String × Json)
  | none => []
  | some n => [(key, Json.num n)]

/-- encoding/json for a `*bool` field tagged omitempty: omitted when nil,
emitted (also when pointing at false) otherwise. -/
def optBoolField (key : String) : Option Bool → List (String × Json)
  | none => []
  | some b => [(key, Json.bool b)]

/-- Marshalling (`json.Marshal`) of a `Record`: fields in declaration order, each under
its tag, all omitempty. -/
def recordFields (r : Record) : List (String × Json) :=
  omitString "name" r.name ++ omitString "type" r.«type» ++
    omitString "content" r.content ++ omitInt "ttl" r.ttl ++
    optIntField "priority" r.priority ++ optBoolField "disabled" r.disabled

/-- Marshalling (`json.Marshal`) of an `ExistingRecord`: the embedded `Record` fields
first, then `id` (no omitempty), `changed_at` (omitempty) and
`changed_by` (pointer, omitempty). -/
def existingRecordFields (e : ExistingRecord) : List (String × Json) :=
  recordFields e.record ++ [("id", Json.num e.id)] ++
    omitInt "changed_at" e.changedAt ++ optIntField "changed_by" e.changedBy

/-- Go type `RecordOperation`: a pre-serialized (`json.RawMessage`)
batch entry, modelled as the JSON document those bytes spell. -/
abbrev RecordOperation := Json

/-- client.go `ModifyRecord`: marshals `ExistingRecord` with the given id,
the given record embedded, and zero change metadata. -/
def ModifyRecord (id : Int) (record : Record) : RecordOperation :=
  Json.obj (existingRecordFields { record := record, id := id })

/-- client.go `DeleteRecord`: marshals the anonymous struct with fields
`id` and `delete` set to the id and `true`. -/
def DeleteRecord (id : Int) : RecordOperation :=
  Json.obj [("id", Json.num id), ("delete", Json.bool true)]

/-- client.go `CreateRecord`: marshals the `Record` directly. -/
def CreateRecord (record : Record) : RecordOperation :=
  Json.obj (recordFields record)

/-- Unmarshal into a Go `string` field: a JSON string is taken, null
leaves the zero value, any other shape is a type error. -/
def decodeString : Json → Option String
  | .str s => some s
  | .null => some ""
  | _ => none

/-- Unmarshal into a Go `bool` field. -/
def decodeBool : Json → Option Bool
  | .bool b => some b
  | .null => some false
  | _ => none

/-- Unmarshal into a Go `int` field. -/
def decodeInt : Json → Option Int
  | .num n => some n
  | .null => some 0
  | _ => none

/-- Unmarshal into a Go `uint64` field: negative numbers are a type
error. -/
def decodeNat : Json → Option Nat
  | .num n => if 0 ≤ n then some n.toNat else none
  | .null => some 0
  | _ => none

/-- Unmarshal into a Go `*string` field: null sets the pointer to nil. -/
def decodeOptString : Json → Option (Option String)
  | .null => some none
  | .str s => some (some s)
  | _ => none

/-- Unmarshal into a Go `*int` field. -/
def decodeOptInt : Json → Option (Option Int)
  | .null => some none
  | .num n => some (some n)
  | _ => none

/-- Unmarshal into a Go `*bool` field. -/
def decodeOptBool : Json → Option (Option Bool)
  | .null => some none
  | .bool b => some (some b)
  | _ => none

/-- Unmarshal into a Go `*json.RawMessage` field: null sets the pointer
to nil, any other JSON value is kept verbatim. -/
def decodeRaw : Json → Option (Option Json)
  | .null => some none
  | v => some (some v)

/-- Unmarshal into a Go `map[string]string` field: every value must be a
string (or null, the zero value). -/
def decodeStringMap : Json → Option (List (String × String))
  | .null => some []
  | .obj fields => fields.mapM (fun p => (decodeString p.2).map (fun s => (p.1, s)))
  | _ => none

/-- Unmarshal one named field of a struct: a missing key leaves the zero
value, a present key is decoded by the field decoder. -/
def decodeField {α : Type} (j : Json) (key : String) (dec : Json → Option α) (dflt : α) : Option α :=
  match j.lookup key with
  | none => some dflt
  | some v => dec v

/-- Go struct `apiResponse` (client.go lines 17-23): the uniform response
envelope. `Error` is a `*string`, `Response` a `*json.RawMessage`. -/
structure apiResponse where
  respid : String := ""
  method : String := ""
  error : Option String := none
  errorData : List (String × String) := []
  response : Option Json := none

/-- Decoding (`json.Decode`) of the response body into an `apiResponse`. -/
def decodeEnvelope (body : Json) : Option apiResponse :=
  match body with
  | .null => some {}
  | .obj _ => do
    let respid ← decodeField body "respid" decodeString ""
    let method ← decodeField body "method" decodeString ""
    let error ← decodeField body "error" decodeOptString none
    let errorData ← decodeField body "errorData" decodeStringMap []
    let response ← decodeField body "response" decodeRaw none
    some { respid, method, error, errorData, response }
  | _ => none

/-- What `http.DefaultClient.Do` handed back on success: a status code
and a body. client.go only ever reads `res.Body`. -/
structure HttpResponse where
  statusCode : Int
  body : Json

/-- Outcome of the network exchange: a transport error or a response. -/
abbrev TransportResult := Except String HttpResponse

/-- client.go request lines 245-249: a decoded envelope with a non-nil
`Error` becomes the error `fmt.Errorf("API error: %s", *response.Error)`;
otherwise the envelope is returned. The `ErrorData` map is not consulted
here. -/
def handleEnvelope (response : apiResponse) : Except String apiResponse :=
  match response.error with
  | some e => .error ("API error: " ++ e)
  | none => .ok response

/-- client.go `request`, from the transport outcome on: propagate a
transport error, decode the body as an envelope (a decode failure is its
own error), then apply the envelope error check. The status code of the
response is never read. -/
def request (t : TransportResult) : Except String apiResponse :=
  match t with
  | .error e => .error e
  | .ok res =>
    match decodeEnvelope res.body with
    | none => .error "json decode error"
    | some response => handleEnvelope response

/-- Outcome of a typed endpoint method. `panicked` marks the nil-pointer
dereference of `*res.Response`; `failure` carries the returned Go error
message. -/
inductive CallOutcome (α : Type) where
  | panicked : CallOutcome α
  | failure : String → CallOutcome α
  | success : α → CallOutcome α
deriving DecidableEq, Repr

/-- The shared shape of every typed endpoint method applied to an
already-decoded envelope: propagate the envelope error, then evaluate
`*res.Response` (a nil `Response` is a panic) and unmarshal the payload
into the typed result of the endpoint. -/
def typedOutcome {α : Type} (dec : Json → Option α) (response : apiResponse) : CallOutcome α :=
  match handleEnvelope response with
  | .error e => .failure e
  | .ok res =>
    match res.response with
    | none => .panicked
    | some payload =>
      match dec payload with
      | none => .failure "unmarshal error"
      | some v => .success v

/-- A typed endpoint method from the transport outcome on: `request`
followed by payload unmarshalling, as in every endpoint of client.go. -/
def typedCall {α : Type} (dec : Json → Option α) (t : TransportResult) : CallOutcome α :=
  match t with
  | .error e => .failure e
  | .ok res =>
    match decodeEnvelope res.body with
    | none => .failure "json decode error"
    | some response => typedOutcome dec response

/-- Go struct `PingResponse`. -/
structure PingResponse where
  time : String := ""
deriving DecidableEq, Repr

/-- Unmarshal a `PingResponse`. -/
def decodePingResponse (j : Json) : Option PingResponse :=
  match j with
  | .null => some {}
  | .obj _ => (decodeField j "time" decodeString "").map (fun t => { time := t })
  | _ => none

/-- The anonymous `User` struct nested in `UserDataResponse`. -/
structure UserInfo where
  id : String := ""
  email : String := ""
  realname : String := ""
deriving DecidableEq, Repr

/-- Unmarshal a `UserInfo`. -/
def decodeUserInfo (j : Json) : Option UserInfo :=
  match j with
  | .null => some {}
  | .obj _ => do
    let id ← decodeField j "id" decodeString ""
    let email ← decodeField j "email" decodeString ""
    let realname ← decodeField j "realname" decodeString ""
    some { id, email, realname }
  | _ => none

/-- The anonymous `Access` struct nested in `UserDataResponse`. -/
structure AccessInfo where
  domainsRead : Bool := false
  domainsWrite : Bool := false
  userRead : Bool := false
  userWrite : Bool := false
deriving DecidableEq, Repr

/-- Unmarshal an `AccessInfo`. -/
def decodeAccessInfo (j : Json) : Option AccessInfo :=
  match j with
  | .null => some {}
  | .obj _ => do
    let domainsRead ← decodeField j "domains_read" decodeBool false
    let domainsWrite ← decodeField j "domains_write" decodeBool false
    let userRead ← decodeField j "user_read" decodeBool false
    let userWrite ← decodeField j "user_write" decodeBool false
    some { domainsRead, domainsWrite, userRead, userWrite }
  | _ => none

/-- Go struct `UserDataResponse`. -/
structure UserDataResponse where
  user : UserInfo := {}
  access : AccessInfo := {}
deriving DecidableEq, Repr

/-- Unmarshal a `UserDataResponse`. -/
def decodeUserDataResponse (j : Json) : Option UserDataResponse :=
  match j with
  | .null => some {}
  | .obj _ => do
    let user ← decodeField j "user" decodeUserInfo {}
    let access ← decodeField j "access" decodeAccessInfo {}
    some { user, access }
  | _ => none

/-- Go type `AccessLevel`, a string. -/
abbrev AccessLevel := String

/-- The access-level constants of client.go. -/
def LevelOwner : AccessLevel := "owner"

/-- Access level admin. -/
def LevelAdmin : AccessLevel := "admin"

/-- Access level write. -/
def LevelWrite : AccessLevel := "write"

/-- Access level read. -/
def LevelRead : AccessLevel := "read"

/-- Access level none. -/
def LevelNone : AccessLevel := "none"

/-- Unmarshal the `map[string]AccessLevel` result of `Domains`. -/
def decodeDomains (j : Json) : Option (List (String × AccessLevel)) :=
  decodeStringMap j

/-- Unmarshal a `Record` (used through the embedded struct by
`ExistingRecord` and transitively by `ChangedRecord`). -/
def decodeRecord (j : Json) : Option Record :=
  match j with
  | .null => some {}
  | .obj _ => do
    let name ← decodeField j "name" decodeString ""
    let ty ← decodeField j "type" decodeString ""
    let content ← decodeField j "content" decodeString ""
    let ttl ← decodeField j "ttl" decodeInt 0
    let priority ← decodeField j "priority" decodeOptInt none
    let disabled ← decodeField j "disabled" decodeOptBool none
    some { name, «type» := ty, content, ttl, priority, disabled }
  | _ => none

/-- Unmarshal an `ExistingRecord`: the embedded `Record` fields and the
identity fields come from the same JSON object. -/
def decodeExistingRecord (j : Json) : Option ExistingRecord :=
  match j with
  | .null => some { record := {}, id := 0 }
  | .obj _ => do
    let record ← decodeRecord j
    let id ← decodeField j "id" decodeInt 0
    let changedAt ← decodeField j "changed_at" decodeInt 0
    let changedBy ← decodeField j "changed_by" decodeOptInt none
    some { record, id, changedAt, changedBy }
  | _ => none

/-- Unmarshal into a Go slice field: an array decodes elementwise, null
leaves the nil slice. -/
def decodeList {α : Type} (dec : Json → Option α) : Json → Option (List α)
  | .null => some []
  | .arr items => items.mapM dec
  | _ => none

/-- The anonymous `Soa` struct nested in `RecordsResponse`. -/
structure SoaInfo where
  primaryNS : String := ""
  adminAddress : String := ""
  serial : Nat := 0
  refresh : Nat := 0
  retry : Nat := 0
  expire : Nat := 0
  minTTL : Nat := 0
deriving DecidableEq, Repr

/-- Unmarshal a `SoaInfo`. -/
def decodeSoaInfo (j : Json) : Option SoaInfo :=
  match j with
  | .null => some {}
  | .obj _ => do
    let primaryNS ← decodeField j "primaryNS" decodeString ""
    let adminAddress ← decodeField j "adminAddress" decodeString ""
    let serial ← decodeField j "serial" decodeNat 0
    let refresh ← decodeField j "refresh" decodeNat 0
    let retry ← decodeField j "retry" decodeNat 0
    let expire ← decodeField j "expire" decodeNat 0
    let minTTL ← decodeField j "min_ttl" decodeNat 0
    some { primaryNS, adminAddress, serial, refresh, retry, expire, minTTL }
  | _ => none

/-- Go struct `RecordsResponse`. -/
structure RecordsResponse where
  records : List ExistingRecord := []
  hasNS : Bool := false
  soa : SoaInfo := {}
deriving DecidableEq, Repr

/-- Unmarshal a `RecordsResponse`. -/
def decodeRecordsResponse (j : Json) : Option RecordsResponse :=
  match j with
  | .null => some {}
  | .obj _ => do
    let records ← decodeField j "records" (decodeList decodeExistingRecord) []
    let hasNS ← decodeField j "hasNS" decodeBool false
    let soa ← decodeField j "soa" decodeSoaInfo {}
    some { records, hasNS, soa }
  | _ => none

/-- Unmarshal a `ChangedRecord`. -/
def decodeChangedRecord (j : Json) : Option ChangedRecord :=
  match j with
  | .null => some { existing := { record := {}, id := 0 } }
  | .obj _ => do
    let existing ← decodeExistingRecord j
    let updated ← decodeField j "updated" decodeBool false
    let deleted ← decodeField j "deleted" decodeBool false
    some { existing, updated, deleted }
  | _ => none

/-- Go struct `ModifyRecordsResponse`. -/
structure ModifyRecordsResponse where
  serial : Nat := 0
  changed : List ChangedRecord := []
deriving DecidableEq, Repr

/-- Unmarshal a `ModifyRecordsResponse`. -/
def decodeModifyRecordsResponse (j : Json) : Option ModifyRecordsResponse :=
  match j with
  | .null => some {}
  | .obj _ => do
    let serial ← decodeField j "serial" decodeNat 0
    let changed ← decodeField j "changed" (decodeList decodeChangedRecord) []
    some { serial, changed }
  | _ => none

/-- Endpoint `Client.Ping` applied to the transport outcome of its request. -/
def Ping (t : TransportResult) : CallOutcome PingResponse :=
  typedCall decodePingResponse t

/-- Endpoint `Client.UserData` applied to the transport outcome of its request. -/
def UserData (t : TransportResult) : CallOutcome UserDataResponse :=
  typedCall decodeUserDataResponse t

/-- Endpoint `Client.Domains` applied to the transport outcome of its request. -/
def Domains (t : TransportResult) : CallOutcome (List (String × AccessLevel)) :=
  typedCall decodeDomains t

/-- Endpoint `Client.Records` applied to the transport outcome of its request. -/
def Records (t : TransportResult) : CallOutcome RecordsResponse :=
  typedCall decodeRecordsResponse t

/-- Endpoint `Client.ModifyRecords` applied to the transport outcome of its
request. -/
def ModifyRecords (t : TransportResult) : CallOutcome ModifyRecordsResponse :=
  typedCall decodeModifyRecordsResponse t

/-- client.go constant `apiHost`. -/
def apiHost : String := "api.mydnshost.co.uk"

/-- client.go constant `apiVersion`. -/
def apiVersion : String := "1.0"

/-- Go constant `http.MethodGet`. -/
def MethodGet : String := "GET"

/-- Go constant `http.MethodPost`. -/
def MethodPost : String := "POST"

/-- client.go request line 225: the URL handed to
`http.NewRequestWithContext`, built by Sprintf from host, version and
route. -/
def requestUrl (route : String) : String :=
  "https://" ++ apiHost ++ "/" ++ apiVersion ++ "/" ++ route

/-- The route `Ping` builds: Sprintf of the current Unix time in
seconds. -/
def pingRoute (unixSeconds : Int) : String :=
  "ping/" ++ toString unixSeconds

/-- The route `UserData` uses. -/
def userdataRoute : String := "userdata"

/-- The route `Domains` uses. -/
def domainsRoute : String := "domains"

/-- The route `Records` and `ModifyRecords` build for a domain. -/
def recordsRoute (domain : String) : String :=
  "domains/" ++ domain ++ "/records"

/-- The HTTP method each endpoint passes to `request`. -/
def pingMethod : String := MethodGet

/-- Method used by `UserData`. -/
def userdataMethod : String := MethodGet

/-- Method used by `Domains`. -/
def domainsMethod : String := MethodGet

/-- Method used by `Records`. -/
def recordsMethod : String := MethodGet

/-- Method used by `ModifyRecords`. -/
def modifyRecordsMethod : String := MethodPost

/-- Go `http.Header`: a map from header name to the list of values set
for it. -/
abbrev Header : Type := String → Option (List String)

/-- The header map of a freshly built request: no headers set. -/
def emptyHeader : Header := fun _ => none

/-- Assignment `r.Header[key] = value` on the header map. -/
def setHeader (h : Header) (key : String) (value : List String) : Header :=
  fun k => if k = key then some value else h k

/-- Go struct `ApiKeyAuthenticator`: user email and API key. -/
structure ApiKeyAuthenticator where
  user : String
  key : String
deriving DecidableEq, Repr

/-- Method `ApiKeyAuthenticator.AddHeaders`: sets `X-API-User` to the user and
`X-API-Key` to the key, nothing else. -/
def ApiKeyAuthenticator.AddHeaders (a : ApiKeyAuthenticator) (h : Header) : Header :=
  setHeader (setHeader h "X-API-User" [a.user]) "X-API-Key" [a.key]

/-- Go struct `DomainKeyAuthenticator`: domain name and domain key. -/
structure DomainKeyAuthenticator where
  domain : String
  key : String
deriving DecidableEq, Repr

/-- Method `DomainKeyAuthenticator.AddHeaders`: sets `X-Domain` to the domain
and `X-Domain-Key` to the key, nothing else. -/
def DomainKeyAuthenticator.AddHeaders (a : DomainKeyAuthenticator) (h : Header) : Header :=
  setHeader (setHeader h "X-Domain" [a.domain]) "X-Domain-Key" [a.key]

/-- The `ClientAuthenticator` implementations the repository defines. -/
inductive ClientAuthenticator where
  | apiKey : ApiKeyAuthenticator → ClientAuthenticator
  | domainKey : DomainKeyAuthenticator → ClientAuthenticator

/-- Interface dispatch of `AddHeaders`. -/
def ClientAuthenticator.AddHeaders : ClientAuthenticator → Header → Header
  | .apiKey a, h => a.AddHeaders h
  | .domainKey a, h => a.AddHeaders h

/-- Go struct `Client`: holds the optional authenticator (a nil
interface value is `none`). -/
structure Client where
  authenticator : Option ClientAuthenticator := none

/-- client.go request lines 230-232: credentials are attached only when
an authenticator is configured. -/
def attachAuth (c : Client) (h : Header) : Header :=
  match c.authenticator with
  | none => h
  | some a => a.AddHeaders h

/-- The header map of an outgoing request: the empty headers of a fresh
request, through the optional authenticator. -/
def requestHeaders (c : Client) : Header :=
  attachAuth c emptyHeader

/-- client.go request lines 216-223: a non-nil body is `json.Marshal`led
and sent as the HTTP body unchanged; a nil body sends no body. -/
def requestBody : Option Json → Option Json
  | none => none
  | some body => some body

/-- Go struct `apiRequest` (client.go lines 25-27): the request wrapper
with the single field `data`. -/
structure apiRequest where
  data : Json

/-- Marshalling (`json.Marshal`) of an `apiRequest`. -/
def marshalApiRequest (r : apiRequest) : Json :=
  Json.obj [("data", r.data)]

/-- client.go ModifyRecords lines 193-204: copy each raw operation into
the records slice, wrap the slice under `records`, and put that object
in the `Data` field of an `apiRequest`. -/
def modifyRecordsRequest (operations : List RecordOperation) : apiRequest :=
  { data := Json.obj [("records", Json.arr (operations.map (fun op => op)))] }

/-- The HTTP body `ModifyRecords` causes `request` to send. -/
def ModifyRecordsBody (operations : List RecordOperation) : Option Json :=
  requestBody (some (marshalApiRequest (modifyRecordsRequest operations)))

/-- Extract the `records` array back out of a request body, for the
round-trip statements. -/
def recordsArrayOf (body : Json) : Option (List Json) :=
  match (body.lookup "data").bind (fun d => d.lookup "records") with
  | some (Json.arr items) => some items
  | _ => none

/-- Spec-side comparison definition, following the wording of the spec: the tag
names of the record fields that are actually populated (a non-empty
string, a non-zero TTL, a non-nil priority or disabled pointer), in
serialization order. -/
def setFieldKeysSpec (r : Record) : List String :=
  (if r.name = "" then [] else ["name"]) ++ (if r.«type» = "" then [] else ["type"]) ++
    (if r.content = "" then [] else ["content"]) ++ (if r.ttl = 0 then [] else ["ttl"]) ++
    (if r.priority.isSome then ["priority"] else []) ++
    (if r.disabled.isSome then ["disabled"] else [])

/-- Unmarshalling a marshalled `Record` recovers it exactly. -/
theorem decodeRecord_createRecord (r : Record) : decodeRecord (CreateRecord r) = some r := by
  rcases r with ⟨name, ty, content, ttl, priority, disabled⟩
  by_cases h1 : name = "" <;> by_cases h2 : ty = "" <;> by_cases h3 : content = "" <;>
    by_cases h4 : ttl = 0 <;> rcases priority with _ | p <;> rcases disabled with _ | b <;>
    simp [CreateRecord, decodeRecord, recordFields, omitString, omitInt, optIntField,
      optBoolField, decodeField, Json.lookup, List.lookup, h1, h2, h3, h4,
      decodeString, decodeInt, decodeOptInt, decodeOptBool]

/-- The function `ModifyRecord` serializes as the record fields followed by the id:
the zero change metadata is omitted. -/
theorem modifyRecord_eq (id : Int) (r : Record) :
    ModifyRecord id r = Json.obj (recordFields r ++ [("id", Json.num id)]) := by
  simp [ModifyRecord, existingRecordFields, omitInt, optIntField]

set_option maxHeartbeats 1000000 in
/-- Unmarshalling the record part of a `ModifyRecord` object recovers the
record: the trailing id field is ignored by the record decoder. -/
theorem decodeRecord_modifyList (id : Int) (r : Record) :
    decodeRecord (Json.obj (recordFields r ++ [("id", Json.num id)])) = some r := by
  rcases r with ⟨name, ty, content, ttl, priority, disabled⟩
  by_cases h1 : name = "" <;> by_cases h2 : ty = "" <;> by_cases h3 : content = "" <;>
    by_cases h4 : ttl = 0 <;> rcases priority with _ | p <;> rcases disabled with _ | b <;>
    simp [decodeRecord, recordFields, omitString, omitInt, optIntField,
      optBoolField, decodeField, Json.lookup, List.lookup, h1, h2, h3, h4,
      decodeString, decodeInt, decodeOptInt, decodeOptBool]

/-- The id is found in a `ModifyRecord` object whatever record fields
precede it. -/
theorem modifyList_lookup_id (id : Int) (r : Record) :
    List.lookup "id" (recordFields r ++ [("id", Json.num id)]) = some (Json.num id) := by
  rcases r with ⟨name, ty, content, ttl, priority, disabled⟩
  by_cases h1 : name = "" <;> by_cases h2 : ty = "" <;> by_cases h3 : content = "" <;>
    by_cases h4 : ttl = 0 <;> rcases priority with _ | p <;> rcases disabled with _ | b <;>
    simp [recordFields, omitString, omitInt, optIntField, optBoolField, List.lookup,
      h1, h2, h3, h4]

/-- A `ModifyRecord` object carries no changed_at field. -/
theorem modifyList_lookup_changedAt (id : Int) (r : Record) :
    List.lookup "changed_at" (recordFields r ++ [("id", Json.num id)]) = none := by
  rcases r with ⟨name, ty, content, ttl, priority, disabled⟩
  by_cases h1 : name = "" <;> by_cases h2 : ty = "" <;> by_cases h3 : content = "" <;>
    by_cases h4 : ttl = 0 <;> rcases priority with _ | p <;> rcases disabled with _ | b <;>
    simp [recordFields, omitString, omitInt, optIntField, optBoolField, List.lookup,
      h1, h2, h3, h4]

/-- A `ModifyRecord` object carries no changed_by field. -/
theorem modifyList_lookup_changedBy (id : Int) (r : Record) :
    List.lookup "changed_by" (recordFields r ++ [("id", Json.num id)]) = none := by
  rcases r with ⟨name, ty, content, ttl, priority, disabled⟩
  by_cases h1 : name = "" <;> by_cases h2 : ty = "" <;> by_cases h3 : content = "" <;>
    by_cases h4 : ttl = 0 <;> rcases priority with _ | p <;> rcases disabled with _ | b <;>
    simp [recordFields, omitString, omitInt, optIntField, optBoolField, List.lookup,
      h1, h2, h3, h4]

set_option maxHeartbeats 1000000 in
/-- Unmarshalling a `ModifyRecord` object as an `ExistingRecord` recovers
the record and id, with zero change metadata. -/
theorem decodeExistingRecord_modifyRecord (id : Int) (r : Record) :
    decodeExistingRecord (ModifyRecord id r) =
      some { record := r, id := id, changedAt := 0, changedBy := none } := by
  rw [modifyRecord_eq]
  simp [decodeExistingRecord, decodeRecord_modifyList, decodeField, Json.lookup,
    modifyList_lookup_id, modifyList_lookup_changedAt, modifyList_lookup_changedBy, decodeInt]

/-- The keys a `CreateRecord` object carries are exactly the populated
record fields. -/
theorem createRecord_objKeys (r : Record) : (CreateRecord r).objKeys = setFieldKeysSpec r := by
  rcases r with ⟨name, ty, content, ttl, priority, disabled⟩
  by_cases h1 : name = "" <;> by_cases h2 : ty = "" <;> by_cases h3 : content = "" <;>
    by_cases h4 : ttl = 0 <;> rcases priority with _ | p <;> rcases disabled with _ | b <;>
    simp [CreateRecord, Json.objKeys, recordFields, omitString, omitInt, optIntField,
      optBoolField, setFieldKeysSpec, h1, h2, h3, h4]

/-- The keys a `ModifyRecord` object carries are exactly the populated
record fields plus the id. -/
theorem modifyRecord_objKeys (id : Int) (r : Record) :
    (ModifyRecord id r).objKeys = setFieldKeysSpec r ++ ["id"] := by
  rw [modifyRecord_eq]
  rcases r with ⟨name, ty, content, ttl, priority, disabled⟩
  by_cases h1 : name = "" <;> by_cases h2 : ty = "" <;> by_cases h3 : content = "" <;>
    by_cases h4 : ttl = 0 <;> rcases priority with _ | p <;> rcases disabled with _ | b <;>
    simp [Json.objKeys, recordFields, omitString, omitInt, optIntField,
      optBoolField, setFieldKeysSpec, h1, h2, h3, h4]

/-- A `CreateRecord` object never carries an id field. -/
theorem createRecord_lookup_id (r : Record) : (CreateRecord r).lookup "id" = none := by
  rcases r with ⟨name, ty, content, ttl, priority, disabled⟩
  by_cases h1 : name = "" <;> by_cases h2 : ty = "" <;> by_cases h3 : content = "" <;>
    by_cases h4 : ttl = 0 <;> rcases priority with _ | p <;> rcases disabled with _ | b <;>
    simp [CreateRecord, Json.lookup, recordFields, omitString, omitInt, optIntField,
      optBoolField, List.lookup, h1, h2, h3, h4]

/-- A `ModifyRecord` object always carries its id. -/
theorem modifyRecord_lookup_id (id : Int) (r : Record) :
    (ModifyRecord id r).lookup "id" = some (Json.num id) := by
  rw [modifyRecord_eq]
  rcases r with ⟨name, ty, content, ttl, priority, disabled⟩
  by_cases h1 : name = "" <;> by_cases h2 : ty = "" <;> by_cases h3 : content = "" <;>
    by_cases h4 : ttl = 0 <;> rcases priority with _ | p <;> rcases disabled with _ | b <;>
    simp [Json.lookup, recordFields, omitString, omitInt, optIntField,
      optBoolField, List.lookup, h1, h2, h3, h4]

/-- The ttl field of a `ModifyRecord` object: present exactly when the
TTL is non-zero. -/
theorem modifyRecord_lookup_ttl (id : Int) (r : Record) :
    (ModifyRecord id r).lookup "ttl" =
      if r.ttl = 0 then none else some (Json.num r.ttl) := by
  rw [modifyRecord_eq]
  rcases r with ⟨name, ty, content, ttl, priority, disabled⟩
  by_cases h1 : name = "" <;> by_cases h2 : ty = "" <;> by_cases h3 : content = "" <;>
    by_cases h4 : ttl = 0 <;> rcases priority with _ | p <;> rcases disabled with _ | b <;>
    simp [Json.lookup, recordFields, omitString, omitInt, optIntField,
      optBoolField, List.lookup, h1, h2, h3, h4]

/-- The priority field of a `ModifyRecord` object mirrors the pointer:
present exactly when non-nil, also when it points at zero. -/
theorem modifyRecord_lookup_priority (id : Int) (r : Record) :
    (ModifyRecord id r).lookup "priority" = r.priority.map Json.num := by
  rw [modifyRecord_eq]
  rcases r with ⟨name, ty, content, ttl, priority, disabled⟩
  by_cases h1 : name = "" <;> by_cases h2 : ty = "" <;> by_cases h3 : content = "" <;>
    by_cases h4 : ttl = 0 <;> rcases priority with _ | p <;> rcases disabled with _ | b <;>
    simp [Json.lookup, recordFields, omitString, omitInt, optIntField,
      optBoolField, List.lookup, h1, h2, h3, h4]

/-- The disabled field of a `ModifyRecord` object mirrors the pointer:
present exactly when non-nil, also when it points at false. -/
theorem modifyRecord_lookup_disabled (id : Int) (r : Record) :
    (ModifyRecord id r).lookup "disabled" = r.disabled.map Json.bool := by
  rw [modifyRecord_eq]
  rcases r with ⟨name, ty, content, ttl, priority, disabled⟩
  by_cases h1 : name = "" <;> by_cases h2 : ty = "" <;> by_cases h3 : content = "" <;>
    by_cases h4 : ttl = 0 <;> rcases priority with _ | p <;> rcases disabled with _ | b <;>
    simp [Json.lookup, recordFields, omitString, omitInt, optIntField,
      optBoolField, List.lookup, h1, h2, h3, h4]

/-- C1 (confirmed): a client call fails exactly on the error
field of the envelope. With `error` non-null the outcome is the API error built from the
message, for every response payload (present or not) and every payload
decoder, so the payload is never decoded; with `error` null and a
well-formed payload the outcome is the decoded typed result; the generic
request succeeds on an envelope exactly when `error` is null; and the
HTTP status code never influences the outcome. -/
theorem c1_envelope_error_sole_signal {α : Type} (dec : Json → Option α)
    (rid m e : String) (ed : List (String × String)) (p : Json) (v : α)
    (h : dec p = some v) :
    (∀ resp : Option Json,
      typedOutcome dec
          { respid := rid, method := m, error := some e, errorData := ed, response := resp } =
        .failure ("API error: " ++ e)) ∧
    typedOutcome dec
        { respid := rid, method := m, error := none, errorData := ed, response := some p } =
      .success v ∧
    (∀ env : apiResponse, handleEnvelope env = .ok env ↔ env.error = none) ∧
    (∀ (s₁ s₂ : Int) (body : Json),
      typedCall dec (.ok { statusCode := s₁, body := body }) =
        typedCall dec (.ok { statusCode := s₂, body := body })) := by
  refine ⟨fun resp => rfl, ?_, ?_, fun s₁ s₂ body => rfl⟩
  · simp [typedOutcome, handleEnvelope, h]
  · intro env
    cases henv : env.error <;> simp [handleEnvelope, henv]

/-- C1 witness: at a concrete envelope and the Ping payload decoder, an
error envelope fails with the message (payload present but undecoded),
and an error-free envelope decodes to the typed result. -/
theorem c1_envelope_error_sole_signal_witness :
    typedOutcome decodePingResponse
        { respid := "r1", method := "ping", error := some "bad", errorData := [],
          response := some (Json.obj [("time", Json.str "now")]) } =
      .failure "API error: bad" ∧
    typedOutcome decodePingResponse
        { respid := "r1", method := "ping", error := none, errorData := [],
          response := some (Json.obj [("time", Json.str "now")]) } =
      .success { time := "now" } := by
  have h := c1_envelope_error_sole_signal decodePingResponse "r1" "ping" "bad" []
      (Json.obj [("time", Json.str "now")]) { time := "now" } rfl
  exact ⟨h.1 (some (Json.obj [("time", Json.str "now")])), h.2.1⟩

/-- C2 counterexample: two envelopes that differ only in their errorData
produce identical returned errors, and that error is exactly the
formatted message string — so the structured errorData is not carried by
(nor recoverable from) the error returned to the caller. -/
theorem c2_errordata_not_carried_counterexample :
    handleEnvelope { error := some "invalid domain", errorData := [("domain", "not found")] } =
      handleEnvelope { error := some "invalid domain", errorData := [] } ∧
    ([("domain", "not found")] : List (String × String)) ≠ ([] : List (String × String)) ∧
    handleEnvelope { error := some "invalid domain", errorData := [("domain", "not found")] } =
      .error "API error: invalid domain" := by
  refine ⟨rfl, by decide, rfl⟩

/-- C2 (corrected): the error returned on a non-empty envelope error
carries the message only, formatted as the string "API error: " followed
by the message; the decoded errorData map does not appear in it, for any
errorData and any response payload. -/
theorem c2_error_message_only (rid m e : String) (ed : List (String × String))
    (resp : Option Json) :
    handleEnvelope
        { respid := rid, method := m, error := some e, errorData := ed, response := resp } =
      .error ("API error: " ++ e) := rfl

/-- C3 counterexample: a modify with an explicitly supplied zero TTL
serializes with no ttl field at all — byte-identical to omitting the
TTL — so an explicit zero TTL is never transmitted; an explicit zero
priority, by contrast, is. -/
theorem c3_zero_ttl_not_transmitted_counterexample :
    (ModifyRecord 5 { ttl := 0 }).lookup "ttl" = none ∧
    ModifyRecord 5 { ttl := 0 } = Json.obj [("id", Json.num 5)] ∧
    (ModifyRecord 5 { priority := some 0 }).lookup "priority" = some (Json.num 0) :=
  ⟨rfl, rfl, rfl⟩

/-- C3 (corrected): ModifyRecord serializes exactly the populated fields
plus the id; for priority and disabled (pointer fields) an absent value
is distinguishable from an explicit zero/false, which are transmitted;
the TTL, a plain int with omitempty, is transmitted only when non-zero,
so an explicit zero TTL is indistinguishable from an absent one. -/
theorem c3_partial_update_field_presence (id : Int) (r : Record) :
    (ModifyRecord id r).objKeys = setFieldKeysSpec r ++ ["id"] ∧
    (ModifyRecord id r).lookup "priority" = r.priority.map Json.num ∧
    (ModifyRecord id r).lookup "disabled" = r.disabled.map Json.bool ∧
    (ModifyRecord id r).lookup "ttl" = (if r.ttl = 0 then none else some (Json.num r.ttl)) :=
  ⟨modifyRecord_objKeys id r, modifyRecord_lookup_priority id r,
   modifyRecord_lookup_disabled id r, modifyRecord_lookup_ttl id r⟩

/-- C3 witness: a modify carrying explicit zero priority and false
disabled transmits both, while its zero TTL is dropped. -/
theorem c3_partial_update_field_presence_witness :
    (ModifyRecord 7 { priority := some 0, disabled := some false }).lookup "priority" =
      some (Json.num 0) ∧
    (ModifyRecord 7 { priority := some 0, disabled := some false }).lookup "disabled" =
      some (Json.bool false) ∧
    (ModifyRecord 7 { priority := some 0, disabled := some false }).lookup "ttl" = none := by
  have h := c3_partial_update_field_presence 7 { priority := some 0, disabled := some false }
  exact ⟨h.2.1, h.2.2.1, h.2.2.2⟩

/-- C4 (confirmed): the output of every constructor decodes back to the
intended shape: CreateRecord yields an object with no id whose record
part round-trips; ModifyRecord yields the id plus exactly the set
record fields and round-trips as an ExistingRecord with zero change
metadata; DeleteRecord yields exactly the two-field id/delete:true
object. -/
theorem c4_constructors_round_trip (id : Int) (r : Record) :
    (CreateRecord r).lookup "id" = none ∧
    decodeRecord (CreateRecord r) = some r ∧
    (CreateRecord r).objKeys = setFieldKeysSpec r ∧
    (ModifyRecord id r).lookup "id" = some (Json.num id) ∧
    (ModifyRecord id r).objKeys = setFieldKeysSpec r ++ ["id"] ∧
    decodeExistingRecord (ModifyRecord id r) =
      some { record := r, id := id, changedAt := 0, changedBy := none } ∧
    DeleteRecord id = Json.obj [("id", Json.num id), ("delete", Json.bool true)] :=
  ⟨createRecord_lookup_id r, decodeRecord_createRecord r, createRecord_objKeys r,
   modifyRecord_lookup_id id r, modifyRecord_objKeys id r,
   decodeExistingRecord_modifyRecord id r, rfl⟩

/-- C4 witness: the round trips at the example record of the repository
and a concrete id. -/
theorem c4_constructors_round_trip_witness :
    decodeRecord
        (CreateRecord { name := "test", «type» := "A", content := "0.0.0.0", ttl := 84600 }) =
      some { name := "test", «type» := "A", content := "0.0.0.0", ttl := 84600 } ∧
    DeleteRecord 55 = Json.obj [("id", Json.num 55), ("delete", Json.bool true)] ∧
    decodeExistingRecord (ModifyRecord 55 { name := "test" }) =
      some { record := { name := "test" }, id := 55, changedAt := 0, changedBy := none } := by
  have h1 := c4_constructors_round_trip 55
      { name := "test", «type» := "A", content := "0.0.0.0", ttl := 84600 }
  have h2 := c4_constructors_round_trip 55 { name := "test" }
  exact ⟨h1.2.1, h1.2.2.2.2.2.2, h2.2.2.2.2.2.1⟩

/-- C5 (confirmed): ModifyRecords sends the body (wrapped under data) in
which the records array holds exactly the submitted operations, in
submission order, each element the encoded operation verbatim; the
request is a POST to the records route of the domain. -/
theorem c5_batch_order_preserved (domain : String) (operations : List RecordOperation) :
    ModifyRecordsBody operations =
      some (Json.obj [("data", Json.obj [("records", Json.arr operations)])]) ∧
    recordsArrayOf (marshalApiRequest (modifyRecordsRequest operations)) = some operations ∧
    (recordsArrayOf (marshalApiRequest (modifyRecordsRequest operations))).map List.length =
      some operations.length ∧
    modifyRecordsMethod = "POST" ∧
    recordsRoute domain = "domains/" ++ domain ++ "/records" := by
  refine ⟨?_, ?_, ?_, rfl, rfl⟩ <;>
    simp [ModifyRecordsBody, requestBody, marshalApiRequest, modifyRecordsRequest,
      recordsArrayOf, Json.lookup, List.lookup]

/-- C5 witness: a concrete mixed batch of two operations serializes in
order under records. -/
theorem c5_batch_order_preserved_witness :
    ModifyRecordsBody [DeleteRecord 1, CreateRecord { name := "x" }] =
      some (Json.obj [("data", Json.obj [("records",
        Json.arr [DeleteRecord 1, CreateRecord { name := "x" }])])]) :=
  (c5_batch_order_preserved "example.com" [DeleteRecord 1, CreateRecord { name := "x" }]).1

/-- C6 counterexample: the generic request operation performs no
wrapping: a supplied payload is serialized as the body unchanged, not as
an object with a data field around it. -/
theorem c6_no_wrapping_in_request_counterexample :
    requestBody (some (Json.str "x")) = some (Json.str "x") ∧
    requestBody (some (Json.str "x")) ≠ some (Json.obj [("data", Json.str "x")]) := by
  refine ⟨rfl, ?_⟩
  intro h
  simp [requestBody] at h

/-- C6 (corrected): the generic request serializes a supplied payload as
the HTTP body unchanged (and sends no body when none is supplied); the
data-wrapping is performed by the caller — ModifyRecords builds the
apiRequest wrapper itself — so the body it sends is wrapped. -/
theorem c6_wrapping_done_by_caller (b : Json) (operations : List RecordOperation) :
    requestBody (some b) = some b ∧
    requestBody none = none ∧
    ModifyRecordsBody operations =
      some (Json.obj [("data", Json.obj [("records", Json.arr operations)])]) := by
  refine ⟨rfl, rfl, ?_⟩
  simp [ModifyRecordsBody, requestBody, marshalApiRequest, modifyRecordsRequest]

/-- C6 witness: a concrete unwrapped payload passes through untouched,
and a concrete ModifyRecords body arrives wrapped. -/
theorem c6_wrapping_done_by_caller_witness :
    requestBody (some (Json.bool true)) = some (Json.bool true) ∧
    ModifyRecordsBody [DeleteRecord 2] =
      some (Json.obj [("data", Json.obj [("records", Json.arr [DeleteRecord 2])])]) := by
  have h1 := c6_wrapping_done_by_caller (Json.bool true) []
  have h2 := c6_wrapping_done_by_caller Json.null [DeleteRecord 2]
  exact ⟨h1.1, h2.2.2⟩

/-- C7 (confirmed): on an envelope with error null and a null or absent
response payload, every typed endpoint method dereferences the nil
payload pointer and panics instead of returning an error value — shown
for the shared pipeline at the decoder of each endpoint and for the five
endpoint methods on a transport response whose body has error and
response null; and with a payload present the pipeline never panics,
so the success path is total exactly under that precondition. -/
theorem c7_nil_payload_panics :
    (∀ (rid m : String) (ed : List (String × String)),
      typedOutcome decodePingResponse
          { respid := rid, method := m, error := none, errorData := ed, response := none } =
        .panicked ∧
      typedOutcome decodeUserDataResponse
          { respid := rid, method := m, error := none, errorData := ed, response := none } =
        .panicked ∧
      typedOutcome decodeDomains
          { respid := rid, method := m, error := none, errorData := ed, response := none } =
        .panicked ∧
      typedOutcome decodeRecordsResponse
          { respid := rid, method := m, error := none, errorData := ed, response := none } =
        .panicked ∧
      typedOutcome decodeModifyRecordsResponse
          { respid := rid, method := m, error := none, errorData := ed, response := none } =
        .panicked) ∧
    Ping (.ok ⟨200, Json.obj [("error", Json.null), ("response", Json.null)]⟩) = .panicked ∧
    UserData (.ok ⟨200, Json.obj [("error", Json.null), ("response", Json.null)]⟩) = .panicked ∧
    Domains (.ok ⟨200, Json.obj [("error", Json.null), ("response", Json.null)]⟩) = .panicked ∧
    Records (.ok ⟨200, Json.obj [("error", Json.null), ("response", Json.null)]⟩) = .panicked ∧
    ModifyRecords (.ok ⟨200, Json.obj [("error", Json.null), ("response", Json.null)]⟩) = .panicked ∧
    (∀ (α : Type) (dec : Json → Option α) (rid m : String) (ed : List (String × String))
        (payload : Json),
      typedOutcome dec
          { respid := rid, method := m, error := none, errorData := ed,
            response := some payload } ≠ .panicked) := by
  refine ⟨fun rid m ed => ⟨rfl, rfl, rfl, rfl, rfl⟩, rfl, rfl, rfl, rfl, rfl, ?_⟩
  intro α dec rid m ed payload
  cases hd : dec payload <;> simp [typedOutcome, handleEnvelope, hd]

/-- C7 witness: the panic at a concrete envelope, and no panic once the
payload is present. -/
theorem c7_nil_payload_panics_witness :
    typedOutcome decodePingResponse
        { respid := "r", method := "ping", error := none, errorData := [], response := none } =
      .panicked ∧
    typedOutcome decodePingResponse
        { respid := "r", method := "ping", error := none, errorData := [],
          response := some Json.null } ≠ .panicked := by
  have h := c7_nil_payload_panics
  exact ⟨(h.1 "r" "ping" []).1,
    h.2.2.2.2.2.2 PingResponse decodePingResponse "r" "ping" [] Json.null⟩

/-- C8 (confirmed): the API-key authenticator sets exactly X-API-User to
the user and X-API-Key to the key (every other header name is left
untouched), the domain-key authenticator sets exactly X-Domain and
X-Domain-Key, and with no authenticator configured the outgoing request
keeps its fresh, credential-free header map. -/
theorem c8_auth_headers_exact (u key d k' : String) (h : Header) :
    ApiKeyAuthenticator.AddHeaders { user := u, key := key } h k' =
      (if k' = "X-API-Key" then some [key]
        else if k' = "X-API-User" then some [u] else h k') ∧
    DomainKeyAuthenticator.AddHeaders { domain := d, key := key } h k' =
      (if k' = "X-Domain-Key" then some [key]
        else if k' = "X-Domain" then some [d] else h k') ∧
    requestHeaders { authenticator := none } k' = none ∧
    attachAuth { authenticator := none } h k' = h k' :=
  ⟨rfl, rfl, rfl, rfl⟩

/-- C8 witness: the concrete credential headers of the example in the
repository, and the absence of headers on an unauthenticated request. -/
theorem c8_auth_headers_exact_witness :
    ApiKeyAuthenticator.AddHeaders
        { user := "user@example.com", key := "demo-key" } emptyHeader "X-API-User" =
      some ["user@example.com"] ∧
    requestHeaders { authenticator := none } "X-API-User" = none := by
  have h := c8_auth_headers_exact "user@example.com" "demo-key" "example.com"
      "X-API-User" emptyHeader
  exact ⟨h.1, h.2.2.1⟩

/-- C9 (confirmed): every URL is https://host/version/route with the
fixed host and version constants, and the catalogued method/route pairs
hold: Ping is a GET of ping/ followed by the Unix time in seconds,
Domains a GET of domains, Records a GET and ModifyRecords a POST of
domains/{domain}/records. -/
theorem c9_request_urls (n : Int) (d : String) :
    apiHost = "api.mydnshost.co.uk" ∧
    apiVersion = "1.0" ∧
    (∀ route : String,
      requestUrl route = "https://" ++ apiHost ++ "/" ++ apiVersion ++ "/" ++ route) ∧
    requestUrl (pingRoute n) = "https://api.mydnshost.co.uk/1.0/ping/" ++ toString n ∧
    pingMethod = "GET" ∧
    requestUrl domainsRoute = "https://api.mydnshost.co.uk/1.0/domains" ∧
    domainsMethod = "GET" ∧
    requestUrl (recordsRoute d) =
      "https://api.mydnshost.co.uk/1.0/domains/" ++ d ++ "/records" ∧
    recordsMethod = "GET" ∧
    modifyRecordsMethod = "POST" :=
  ⟨rfl, rfl, fun _ => rfl, rfl, rfl, rfl, rfl, rfl, rfl, rfl⟩

/-- C9 witness: the fully evaluated URLs at a concrete timestamp and
domain. -/
theorem c9_request_urls_witness :
    requestUrl (pingRoute 1700000000) = "https://api.mydnshost.co.uk/1.0/ping/1700000000" ∧
    requestUrl (recordsRoute "example.com") =
      "https://api.mydnshost.co.uk/1.0/domains/example.com/records" := by
  have h := c9_request_urls 1700000000 "example.com"
  exact ⟨h.2.2.2.1, h.2.2.2.2.2.2.2.1⟩
